import Mathlib

/-
  Shallow embedding of the COMTRADE record-layout engine (comtrade.py):
  the configuration parser (Cfg._read_io), the timestamp parser
  (_get_date / _get_time / _read_timestamp), the DatReader family
  (time resolution, preallocation, ASCII and binary row decoding),
  the data-format dispatch (Comtrade._get_dat_reader) and the CFF
  binary-DAT slice (Comtrade._load_cff).

  Conventions of the embedding:
  - Python `int` is ℤ (arbitrary precision, may be negative);
    `float` is ℚ (decimal literals are modelled exactly; every float
    computation the claims touch is exact decimal arithmetic).
  - Fallible Python code (exceptions) returns `Except String α`.
  - Python lists are Lean `List`s; in-place element assignment is
    `List.set` (always in bounds at the call sites modelled).
-/

set_option maxRecDepth 4096

set_option allowUnsafeReducibility true

attribute [local semireducible] Rat.mul Rat.add Rat.sub Rat.inv Rat.ofScientific

/-- COMTRADE standard revision constant "1991" (module constant REV_1991). -/
def REV_1991 : String := "1991"

/-- COMTRADE standard revision constant "1999" (module constant REV_1999). -/
def REV_1999 : String := "1999"

/-- COMTRADE standard revision constant "2013" (module constant REV_2013). -/
def REV_2013 : String := "2013"

/-- DAT format tag "ASCII" (module constant TYPE_ASCII). -/
def TYPE_ASCII : String := "ASCII"

/-- DAT format tag "BINARY" (module constant TYPE_BINARY). -/
def TYPE_BINARY : String := "BINARY"

/-- DAT format tag "BINARY32" (module constant TYPE_BINARY32). -/
def TYPE_BINARY32 : String := "BINARY32"

/-- DAT format tag "FLOAT32" (module constant TYPE_FLOAT32). -/
def TYPE_FLOAT32 : String := "FLOAT32"

/-- Reserved sentinel 0xFFFFFFFF meaning "timestamp not provided"
    (module constant TIMESTAMP_MISSING). -/
def TIMESTAMP_MISSING : ℕ := 0xFFFFFFFF

/-- Warnings emitted by the engine (Python warnings.warn calls), by kind. -/
inductive CWarning
  | unknownRevision (rev : String)
  | datetimeNano
  | minDate
deriving DecidableEq

/-- Whether a warning is the unknown-standard-revision warning. -/
def CWarning.isUnknownRevision : CWarning → Bool
  | .unknownRevision _ => true
  | _ => false

/-- Value of a digit string read most-significant first, as computed by
    Python int() on a string of decimal digits. -/
def natOfDigits (l : List Char) : ℕ :=
  l.foldl (fun a c => 10 * a + (c.toNat - 48)) 0

/-- Python str.strip: drop leading and trailing whitespace (structural
    model of the strip used throughout the parser). -/
def pyStrip (s : String) : String :=
  String.mk (((s.data.dropWhile Char.isWhitespace).reverse.dropWhile
    Char.isWhitespace).reverse)

/-- Split a character list at every separator character (Python
    str.split with an explicit separator: empty input gives one empty
    part, n separators give n+1 parts). -/
def splitChars (p : Char → Bool) : List Char → List (List Char)
  | [] => [[]]
  | c :: rest =>
    let r := splitChars p rest
    if p c then [] :: r
    else
      match r with
      | h :: t => (c :: h) :: t
      | [] => [[c]]

/-- Python str.split on a string. -/
def pySplit (s : String) (p : Char → Bool) : List String :=
  (splitChars p s.data).map String.mk

/-- Python s[:-1]: the string without its final character. -/
def pyDropLast (s : String) : String := String.mk s.data.dropLast

/-- Python int(s) on a stripped decimal string: optional sign then a
    nonempty run of digits; anything else raises ValueError. -/
def pyInt (s : String) : Except String ℤ :=
  let t := pyStrip s
  let signAndDigits : ℤ × List Char :=
    match t.data with
    | '+' :: rest => (1, rest)
    | '-' :: rest => (-1, rest)
    | l => (1, l)
  let sign := signAndDigits.1
  let ds := signAndDigits.2
  if ds ≠ [] ∧ ds.all Char.isDigit then .ok (sign * (natOfDigits ds : ℤ))
  else .error ("ValueError: invalid literal for int: " ++ s)

/-- Split a character list into its leading run of decimal digits and
    the remainder. -/
def splitLeadingDigits (l : List Char) : List Char × List Char :=
  (l.takeWhile Char.isDigit, l.dropWhile Char.isDigit)

/-- First occurrence split: returns the part before the first character
    satisfying p and the part strictly after it, when one exists. -/
def splitOnce (p : Char → Bool) : List Char → Option (List Char × List Char)
  | [] => none
  | c :: rest =>
    if p c then some ([], rest)
    else match splitOnce p rest with
      | some (l, r) => some (c :: l, r)
      | none => none

/-- Python float(s) on finite decimal notation: optional sign, digits
    with an optional decimal point (at least one digit overall), and an
    optional exponent part. The value is the exact rational the decimal
    denotes (the embedding treats floats as exact decimals). -/
def pyFloat (s : String) : Except String ℚ :=
  let t := pyStrip s
  let signAndBody : ℚ × List Char :=
    match t.data with
    | '+' :: rest => (1, rest)
    | '-' :: rest => (-1, rest)
    | l => (1, l)
  let sign := signAndBody.1
  let body := signAndBody.2
  let mantissaAndExp : List Char × Option (List Char) :=
    match splitOnce (fun c => c = 'e' ∨ c = 'E') body with
    | some (m, e) => (m, some e)
    | none => (body, none)
  let mantissa := mantissaAndExp.1
  let ipfp : List Char × List Char :=
    match splitOnce (fun c => c = '.') mantissa with
    | some (ip, fp) => (ip, fp)
    | none => (mantissa, [])
  let ip := ipfp.1
  let fp := ipfp.2
  let expPart : Except String ℤ :=
    match mantissaAndExp.2 with
    | none => .ok 0
    | some e =>
      let se : ℤ × List Char :=
        match e with
        | '+' :: rest => (1, rest)
        | '-' :: rest => (-1, rest)
        | l => (1, l)
      if se.2 ≠ [] ∧ se.2.all Char.isDigit then .ok (se.1 * (natOfDigits se.2 : ℤ))
      else .error ("ValueError: could not convert string to float: " ++ s)
  if (ip ++ fp) ≠ [] ∧ ip.all Char.isDigit ∧ fp.all Char.isDigit then
    match expPart with
    | .ok ex =>
      .ok (sign * ((natOfDigits ip : ℚ) + (natOfDigits fp : ℚ) / (10 : ℚ) ^ fp.length)
            * (10 : ℚ) ^ ex)
    | .error msg => .error msg
  else .error ("ValueError: could not convert string to float: " ++ s)

/-- Model of module function _read_sep_values: split the line on commas,
    strip each cell; when an expected count is given (not -1) and the
    actual count differs, pad missing cells with the default and drop
    extra cells. -/
def read_sep_values (line : String) (expected : ℤ) (default : String) : List String :=
  let values := (pySplit line (fun c => c = ',')).map pyStrip
  if expected = -1 ∨ (values.length : ℤ) = expected then values
  else (List.range expected.toNat).map (fun i => values.getD i default)

/-- Model of _prevent_null instantiated at float: blank cells yield the
    default instead of a conversion error. -/
def prevent_null_float (s : String) (d : ℚ) : Except String ℚ :=
  if (pyStrip s).length = 0 then .ok d else pyFloat s

/-- Model of _prevent_null instantiated at int. -/
def prevent_null_int (s : String) (d : ℤ) : Except String ℤ :=
  if (pyStrip s).length = 0 then .ok d else pyInt s

/-- Model of module function fill_with_zeros_to_the_right: append zeros
    until the string reaches the width; longer strings are returned
    unchanged. -/
def fill_with_zeros_to_the_right (number_str : String) (width : ℕ) : String :=
  let actual_len := number_str.length
  if actual_len < width then
    number_str ++ String.mk (List.replicate (width - actual_len) '0')
  else number_str

/-- Fraction-of-second handling of module function _get_time (lines
    116-131): pad with fill_with_zeros_to_the_right to 6 when the
    fraction has at most 6 digits, otherwise to 9; the nanosecond flag is
    set when the padded string is longer than 6; in the nanosecond case
    the stored microsecond value is int(frac * 1E-3), which for every
    value below 10^12 equals integer division by 1000 (the double
    rounding of frac * 1E-3 never crosses an integer in that range).
    Returns (microsecond, nanosecond flag, warnings). -/
def fracToMicro (fracsec : String) (ignore_warnings : Bool) : ℕ × Bool × List CWarning :=
  let fracsec_str :=
    if fracsec.length ≤ 6 then fill_with_zeros_to_the_right fracsec 6
    else fill_with_zeros_to_the_right fracsec 9
  let frac_second := natOfDigits fracsec_str.data
  let in_nanoseconds := fracsec_str.length > 6
  if in_nanoseconds then
    (frac_second / 1000, true, if ignore_warnings then [] else [CWarning.datetimeNano])
  else (frac_second, false, [])

/-- Model of the prefix match of the time regular expression
    ([0-9]-1,2-):([0-9]-2-):([0-9]-2-)(\.([0-9]-1,12-))? . Returns
    (hour digits value, minute, second, optional fraction digit string).
    Greedy matching of the bounded digit runs followed by a required
    literal is equivalent to: the full leading digit run has an allowed
    length and the literal follows it. -/
def matchTime (s : String) : Option (ℕ × ℕ × ℕ × Option String) :=
  let l := s.data
  let hourSplit := splitLeadingDigits l
  let hd := hourSplit.1
  if hd.length = 0 ∨ hd.length > 2 then none else
  match hourSplit.2 with
  | ':' :: a :: b :: ':' :: c :: d :: rest2 =>
    if a.isDigit ∧ b.isDigit ∧ c.isDigit ∧ d.isDigit then
      let frac : Option String :=
        match rest2 with
        | '.' :: rest3 =>
          let fd := (splitLeadingDigits rest3).1
          if fd.length = 0 then none else some (String.mk (fd.take 12))
        | _ => none
      some (natOfDigits hd, natOfDigits [a, b], natOfDigits [c, d], frac)
    else none
  | _ => none

/-- Model of the prefix match of the date regular expression
    ([0-9]-1,2-)/([0-9]-1,2-)/([0-9]-2,4-): returns the three numeric
    groups in order. -/
def matchDate (s : String) : Option (ℕ × ℕ × ℕ) :=
  let s1 := splitLeadingDigits s.data
  if s1.1.length = 0 ∨ s1.1.length > 2 then none else
  match s1.2 with
  | '/' :: rest1 =>
    let s2 := splitLeadingDigits rest1
    if s2.1.length = 0 ∨ s2.1.length > 2 then none else
    match s2.2 with
    | '/' :: rest3 =>
      let yd := (splitLeadingDigits rest3).1
      if yd.length < 2 then none else
      some (natOfDigits s1.1, natOfDigits s2.1, natOfDigits (yd.take 4))
    | _ => none
  | _ => none

/-- Model of module function _get_date: first regex group is returned as
    day, second as month, third as year; an unmatched string yields
    (0, 0, 0). -/
def pyGetDate (date_str : String) : ℕ × ℕ × ℕ :=
  match matchDate date_str with
  | some g => g
  | none => (0, 0, 0)

/-- Model of module function _get_time: on a regex match the fraction
    group is processed by fracToMicro; a match without a fraction group
    makes len(None) raise TypeError; an unmatched string returns None
    (Python falls off the function). -/
def pyGetTime (time_str : String) (ignore_warnings : Bool) :
    Except String (Option ((ℕ × ℕ × ℕ × ℕ × Bool) × List CWarning)) :=
  match matchTime time_str with
  | none => .ok none
  | some (_, _, _, none) => .error "TypeError: object of type NoneType has no len"
  | some (h, m, sec, some frac) =>
    let r := fracToMicro frac ignore_warnings
    .ok (some ((h, m, sec, r.1, r.2.1), r.2.2))

/-- Calendar timestamp as stored by datetime.datetime. -/
structure Datetime where
  year : ℕ
  month : ℕ
  day : ℕ
  hour : ℕ
  minute : ℕ
  second : ℕ
  microsecond : ℕ
deriving DecidableEq

/-- Gregorian leap-year rule used by the datetime module. -/
def isLeapYear (y : ℕ) : Bool := y % 4 = 0 ∧ (y % 100 ≠ 0 ∨ y % 400 = 0)

/-- Number of days of a month as validated by datetime.datetime. -/
def daysInMonth (y m : ℕ) : ℕ :=
  if m = 2 then (if isLeapYear y then 29 else 28)
  else if m = 4 ∨ m = 6 ∨ m = 9 ∨ m = 11 then 30 else 31

/-- datetime.datetime constructor with its range validation; out-of-range
    arguments raise ValueError. -/
def mkDatetime (y m d hh mm ss us : ℕ) : Except String Datetime :=
  if 1 ≤ y ∧ y ≤ 9999 ∧ 1 ≤ m ∧ m ≤ 12 ∧ 1 ≤ d ∧ d ≤ daysInMonth y m
     ∧ hh ≤ 23 ∧ mm ≤ 59 ∧ ss ≤ 59 ∧ us ≤ 999999 then
    .ok ⟨y, m, d, hh, mm, ss, us⟩
  else .error "ValueError: datetime argument out of range"

/-- Model of module function _read_timestamp: split the cell into date
    and time parts, apply the revision-dependent date field order (1991
    reads month/day/year, later revisions day/month/year), parse the time
    of day, substitute minimal calendar values for missing date fields
    (with a warning), and build the datetime. Returns the timestamp, the
    nanosecond flag and the warnings emitted. -/
def read_timestamp (timestamp_line : String) (rev_year : String)
    (ignore_warnings : Bool) : Except String (Datetime × Bool × List CWarning) := do
  let parsed : Except String ((ℕ × ℕ × ℕ) × (ℕ × ℕ × ℕ × ℕ) × Bool × List CWarning) :=
    if (pyStrip timestamp_line).length > 0 then do
      let values := read_sep_values timestamp_line 2 ""
      let date_str := values.getD 0 ""
      let time_str := values.getD 1 ""
      let dmy : ℕ × ℕ × ℕ :=
        if (pyStrip date_str).length > 0 then
          if rev_year = REV_1991 then
            let g := pyGetDate date_str
            (g.2.1, g.1, g.2.2)
          else pyGetDate date_str
        else (0, 0, 0)
      if (pyStrip time_str).length > 0 then do
        match ← pyGetTime time_str ignore_warnings with
        | none => .error "TypeError: cannot unpack non-iterable NoneType object"
        | some ((h, mi, se, us, nano), ws) => pure (dmy, (h, mi, se, us), nano, ws)
      else pure (dmy, (0, 0, 0, 0), false, [])
    else pure ((0, 0, 0), (0, 0, 0, 0), false, [])
  let ((day, month, year), (hour, minute, second, microsecond), nanosec, ws) ← parsed
  let yearSub := if year = 0 then (1, true) else (year, false)
  let monthSub := if month = 0 then (1, true) else (month, false)
  let daySub := if day = 0 then (1, true) else (day, false)
  let using_min_data := yearSub.2 ∨ monthSub.2 ∨ daySub.2
  let timestamp ← mkDatetime yearSub.1 monthSub.1 daySub.1 hour minute second microsecond
  let ws2 := ws ++ (if ¬ignore_warnings ∧ using_min_data then [CWarning.minDate] else [])
  pure (timestamp, nanosec, ws2)

/-- Analog channel descriptor (class AnalogChannel). -/
structure AnalogChannel where
  n : ℤ
  a : ℚ
  b : ℚ
  skew : ℚ
  cmin : ℚ
  cmax : ℚ
  name : String
  uu : String
  ph : String
  ccbm : String
  primary : ℚ
  secondary : ℚ
  pors : String
deriving DecidableEq

/-- Status channel descriptor (class StatusChannel). -/
structure StatusChannel where
  n : ℤ
  name : String
  ph : String
  ccbm : String
  y : ℤ
deriving DecidableEq

/-- Time-base unit constant Cfg.TIME_BASE_NANOSEC = 1E-9. -/
def TIME_BASE_NANOSEC : ℚ := 1 / 1000000000

/-- Time-base unit constant Cfg.TIME_BASE_MICROSEC = 1E-6. -/
def TIME_BASE_MICROSEC : ℚ := 1 / 1000000

/-- Cfg._get_time_base: nanosecond base when the fraction used
    nanosecond resolution, else microsecond base. -/
def get_time_base (using_nanoseconds : Bool) : ℚ :=
  if using_nanoseconds then TIME_BASE_NANOSEC else TIME_BASE_MICROSEC

/-- Configuration record produced by Cfg._read_io (the attributes of a
    parsed Cfg object). -/
structure Cfg where
  station_name : String
  rec_dev_id : String
  rev_year : String
  channels_count : ℤ
  analog_count : ℤ
  status_count : ℤ
  analog_channels : List AnalogChannel
  status_channels : List StatusChannel
  frequency : ℚ
  nrates : ℤ
  sample_rates : List (ℚ × ℤ)
  timestamp_critical : Bool
  start_timestamp : Datetime
  trigger_timestamp : Datetime
  time_base : ℚ
  ft : String
  time_multiplier : ℚ
  time_code : String
  local_code : String
  tmq_code : String
  leap_second : String
deriving DecidableEq

/-- Read one line of the stream: the next line, or the empty string at
    end of file (Python readline), together with the rest of the stream. -/
def readline : List String → String × List String
  | [] => ("", [])
  | l :: ls => (l, ls)

/-- First line of Cfg._read_io: three fields give station, device and
    revision (warning when the revision is not one of the three known
    values); any other field count is destructured into exactly two
    fields (station, device) and the revision defaults to "1991". -/
def parseLine1 (line : String) (ignore_warnings : Bool) :
    Except String (String × String × String × List CWarning) :=
  let packed := read_sep_values line (-1) ""
  if packed.length = 3 then
    let rev := pyStrip (packed.getD 2 "")
    let ws := if rev ≠ REV_1991 ∧ rev ≠ REV_1999 ∧ rev ≠ REV_2013 ∧ ¬ignore_warnings
              then [CWarning.unknownRevision rev] else []
    .ok (packed.getD 0 "", packed.getD 1 "", rev, ws)
  else
    match packed with
    | [station, dev] => .ok (station, dev, REV_1991, [])
    | _ => .error "ValueError: cannot unpack line 1 into two values"

/-- Second line of Cfg._read_io: total count, then analog and status
    counts whose one-character type suffix is dropped before int
    conversion. No consistency check relates the three numbers. -/
def parseChannelCounts (line : String) : Except String (ℤ × ℤ × ℤ) := do
  let v := read_sep_values line 3 "0"
  let totchn ← pyInt (v.getD 0 "")
  let achn ← pyInt (pyDropLast (v.getD 1 ""))
  let schn ← pyInt (pyDropLast (v.getD 2 ""))
  pure (totchn, achn, schn)

/-- One analog channel description line (13 comma-separated fields,
    missing fields padded with "0"; blank b and skew default to 0.0). -/
def parseAnalogLine (line : String) : Except String AnalogChannel := do
  let p := read_sep_values line 13 "0"
  let n ← pyInt (p.getD 0 "")
  let a ← pyFloat (p.getD 5 "")
  let b ← prevent_null_float (p.getD 6 "") 0
  let skew ← prevent_null_float (p.getD 7 "") 0
  let cmin ← pyFloat (p.getD 8 "")
  let cmax ← pyFloat (p.getD 9 "")
  let primary ← pyFloat (p.getD 10 "")
  let secondary ← pyFloat (p.getD 11 "")
  pure { n := n, a := a, b := b, skew := skew, cmin := cmin, cmax := cmax,
         name := p.getD 1 "", uu := p.getD 4 "", ph := p.getD 2 "",
         ccbm := p.getD 3 "", primary := primary, secondary := secondary,
         pors := p.getD 12 "" }

/-- One status channel description line (5 fields, blank normal-state
    value defaults to 0). -/
def parseStatusLine (line : String) : Except String StatusChannel := do
  let p := read_sep_values line 5 "0"
  let n ← pyInt (p.getD 0 "")
  let y ← prevent_null_int (p.getD 4 "") 0
  pure { n := n, name := p.getD 1 "", ph := p.getD 2 "", ccbm := p.getD 3 "", y := y }

/-- Consume count lines, parsing each with f. -/
def parseLines (f : String → Except String α) : ℕ → List String →
    Except String (List α × List String)
  | 0, lines => .ok ([], lines)
  | n + 1, lines => do
    let (line, rest) := readline lines
    let x ← f line
    let (xs, rest2) ← parseLines f n rest
    pure (x :: xs, rest2)

/-- One sample-rate line: two comma-separated fields (rate, last sample
    index); a different field count fails the two-value unpacking. -/
def parseSampleRateLine (line : String) : Except String (ℚ × ℤ) := do
  match read_sep_values line (-1) "" with
  | [sampStr, endsampStr] => do
    let samp ← pyFloat sampStr
    let endsamp ← pyInt endsampStr
    pure (samp, endsamp)
  | _ => .error "ValueError: cannot unpack sample rate line into two values"

/-- Two-element unpacking (Python a, b = seq). -/
def unpack2 : List α → Except String (α × α)
  | [a, b] => .ok (a, b)
  | _ => .error "ValueError: cannot unpack into two values"

/-- Frequency line: a blank line keeps the default 0.0, otherwise the
    stripped cell is converted with float(). -/
def parseFrequency (line : String) : Except String ℚ :=
  if (pyStrip line).length > 0 then pyFloat (pyStrip line) else pure (0 : ℚ)

/-- Time-multiplier line, present only for the 1999 and 2013 revisions:
    a blank (or absent) line defaults to 1.0. Returns the multiplier and
    the rest of the stream. -/
def parseTimeMult (rev_year : String) (lines : List String) :
    Except String (ℚ × List String) :=
  if rev_year = REV_1999 ∨ rev_year = REV_2013 then
    let lr := readline lines
    let l := pyStrip lr.1
    if l.length > 0 then do
      let m ← pyFloat l
      pure (m, lr.2)
    else pure ((1 : ℚ), lr.2)
  else pure ((1 : ℚ), lines)

/-- The two 2-field metadata lines of the 2013 revision: skipped entirely
    at end of file, otherwise both lines are unpacked into two fields. -/
def parse2013Codes (rev_year : String) (lines : List String) :
    Except String ((String × String) × String × String) :=
  if rev_year = REV_2013 then
    match lines with
    | [] => pure (("0", "0"), ("0", "0"))
    | l :: rest => do
      let (time_code, local_code) ← unpack2 (read_sep_values l (-1) "")
      let (tmq_code, leap_second) ← unpack2 (read_sep_values (readline rest).1 (-1) "")
      pure ((time_code, local_code), (tmq_code, leap_second))
  else pure (("0", "0"), ("0", "0"))

/-- Model of Cfg._read_io: the positional, revision-dependent
    configuration grammar. The input is the file's lines (without
    newlines); reading past the end yields empty strings. Returns the
    parsed configuration and every warning emitted. -/
def readCfgLines (lines0 : List String) (ignore_warnings : Bool) :
    Except String (Cfg × List CWarning) := do
  let (line, lines) := readline lines0
  let (station_name, rec_dev_id, rev_year, w1) ← parseLine1 line ignore_warnings
  let (line, lines) := readline lines
  let (channels_count, analog_count, status_count) ← parseChannelCounts line
  let (analog_channels, lines) ← parseLines parseAnalogLine analog_count.toNat lines
  let (status_channels, lines) ← parseLines parseStatusLine status_count.toNat lines
  let (line, lines) := readline lines
  let frequency ← parseFrequency line
  let (line, lines) := readline lines
  let nrates0 ← pyInt (pyStrip line)
  let (nrates, timestamp_critical) :=
    if nrates0 = 0 then ((1 : ℤ), true) else (nrates0, false)
  let (sample_rates, lines) ← parseLines parseSampleRateLine nrates.toNat lines
  let (line, lines) := readline lines
  let (start_timestamp, nano1, w2) ← read_timestamp (pyStrip line) rev_year ignore_warnings
  let time_base1 := get_time_base nano1
  let (line, lines) := readline lines
  let (trigger_timestamp, nano2, w3) ← read_timestamp (pyStrip line) rev_year ignore_warnings
  let time_base := min time_base1 (get_time_base nano2)
  let (line, lines) := readline lines
  let ft := pyStrip line
  let (time_multiplier, lines) ← parseTimeMult rev_year lines
  let codes ← parse2013Codes rev_year lines
  pure ({ station_name := station_name, rec_dev_id := rec_dev_id,
          rev_year := rev_year, channels_count := channels_count,
          analog_count := analog_count, status_count := status_count,
          analog_channels := analog_channels, status_channels := status_channels,
          frequency := frequency, nrates := nrates,
          sample_rates := sample_rates, timestamp_critical := timestamp_critical,
          start_timestamp := start_timestamp, trigger_timestamp := trigger_timestamp,
          time_base := time_base, ft := ft, time_multiplier := time_multiplier,
          time_code := codes.1.1, local_code := codes.1.2,
          tmq_code := codes.2.1, leap_second := codes.2.2 },
        w1 ++ w2 ++ w3)

/-- Model of DatReader._get_samp: return the rate of the first sample
    rate pair whose end-sample bound is at least n; the fallback variable
    last_sample_rate stays at its initial 1.0 (it is never reassigned). -/
def dat_get_samp : List (ℚ × ℤ) → ℤ → ℚ
  | [], _ => 1
  | (samp, endsamp) :: rest, n => if n ≤ endsamp then samp else dat_get_samp rest n

/-- Model of DatReader._get_time: when the configuration's
    timestamp_critical flag is NOT set, or the raw timestamp equals
    TIMESTAMP_MISSING, the time is computed from the 1-based sample index
    (fatal when the located sample rate is 0); otherwise the provided
    timestamp is scaled by time base and multiplier. -/
def dat_get_time (timestamp_critical : Bool) (sample_rates : List (ℚ × ℤ))
    (n : ℤ) (ts_value : ℚ) (time_base : ℚ) (time_multiplier : ℚ) :
    Except String ℚ :=
  let sample_rate := dat_get_samp sample_rates n
  if timestamp_critical = false ∨ ts_value = (TIMESTAMP_MISSING : ℕ) then
    if sample_rate ≠ 0 then .ok (((n : ℚ) - 1) / sample_rate)
    else .error "Missing timestamp and no sample rate provided."
  else .ok (ts_value * time_base * time_multiplier)

/-- Output arrays of a DatReader: time values, per-channel analog values,
    per-channel status values, and the total sample count. -/
structure DatState where
  time : List ℚ
  analog : List (List ℚ)
  status : List (List ℤ)
  total : ℤ
deriving DecidableEq

/-- Model of _preallocate_values on the default (non-numpy) path:
    array.array(t, [0]) * size, which is empty for a non-positive size. -/
def preallocate_values (size : ℤ) (v : α) : List α :=
  List.replicate size.toNat v

/-- Model of DatReader._preallocate: the number of samples is the last
    sample rate pair's end-sample field (IndexError when the list is
    empty); every output array is preallocated to that many zeros. -/
def dat_preallocate (cfg : Cfg) : Except String DatState :=
  match cfg.sample_rates.getLast? with
  | none => .error "IndexError: list index out of range"
  | some r =>
    let steps := r.2
    .ok { time := preallocate_values steps (0 : ℚ),
          analog := List.replicate cfg.analog_count.toNat (preallocate_values steps (0 : ℚ)),
          status := List.replicate cfg.status_count.toNat (preallocate_values steps (0 : ℤ)),
          total := steps }

/-- In-place assignment m[i][row] = v on a list of lists. -/
def setCell (m : List (List α)) (i row : ℕ) (v : α) : List (List α) :=
  m.set i ((m.getD i []).set row v)

/-- Python sequence indexing: IndexError when out of range. -/
def pyIndex (l : List α) (i : ℕ) : Except String α :=
  match l.get? i with
  | some x => .ok x
  | none => .error "IndexError: list index out of range"

/-- Python slice l[k:] with a possibly negative start (a negative start
    counts from the end, clamped at 0). -/
def pySliceFrom (l : List α) (k : ℤ) : List α :=
  if 0 ≤ k then l.drop k.toNat else l.drop (((l.length : ℤ) + k).toNat)

/-- Scaled analog cell values of one ASCII row: float(x) * a[i] + b[i]
    for the i-th sliced cell (IndexError when the gain and offset lists
    are shorter than the slice). -/
def asciiAnalogValuesAux (a b : List ℚ) : List String → ℕ → Except String (List ℚ)
  | [], _ => .ok []
  | x :: xs, i => do
    let xv ← pyFloat x
    let ai ← pyIndex a i
    let bi ← pyIndex b i
    let rest ← asciiAnalogValuesAux a b xs (i + 1)
    pure ((xv * ai + bi) :: rest)

/-- Model of AsciiDatReader.parse, one line per sample: stop before
    processing once the line counter exceeds the total sample count; per
    line read the sample index and raw timestamp, resolve the time with
    DatReader._get_time, scale the analog cells values[2:analog_count+2],
    take the status cells as the final status_count fields (anchored at
    the row's end), and store everything at row line_number - 1. -/
def asciiParseGo (cfg : Cfg) (a b : List ℚ) :
    List String → ℕ → DatState → Except String DatState
  | [], _, st => .ok st
  | line :: rest, line_number, st =>
    let ln := line_number + 1
    if (ln : ℤ) > st.total then .ok st
    else do
      let values := pySplit (pyStrip line) (fun c => c = ',')
      let nStr ← pyIndex values 0
      let n ← pyInt nStr
      let tsStr ← pyIndex values 1
      let ts_val ← pyFloat tsStr
      let ts ← dat_get_time cfg.timestamp_critical cfg.sample_rates n ts_val
                 cfg.time_base cfg.time_multiplier
      let avalues ← asciiAnalogValuesAux a b ((values.drop 2).take cfg.analog_count.toNat) 0
      let svalues ← (pySliceFrom values ((values.length : ℤ) - cfg.status_count)).mapM pyInt
      let time2 := st.time.set (ln - 1) ts
      let analog2 ← (List.range cfg.analog_count.toNat).foldlM
          (fun m i => do
            let v ← pyIndex avalues i
            pure (setCell m i (ln - 1) v)) st.analog
      let status2 ← (List.range cfg.status_count.toNat).foldlM
          (fun m i => do
            let v ← pyIndex svalues i
            pure (setCell m i (ln - 1) v)) st.status
      asciiParseGo cfg a b rest ln
        { time := time2, analog := analog2, status := status2, total := st.total }

/-- AsciiDatReader.parse entry: the gain and offset vectors are built
    once from the configuration's analog channels. -/
def asciiParse (cfg : Cfg) (lines : List String) (st : DatState) :
    Except String DatState :=
  asciiParseGo cfg (cfg.analog_channels.map (fun c => c.a))
    (cfg.analog_channels.map (fun c => c.b)) lines 0 st

/-- One piece of a Python str.format template: literal text or a named
    replacement field. -/
inductive FmtPart
  | lit (s : String)
  | field (name : String)
deriving DecidableEq

/-- Python str.format with keyword arguments: a replacement field whose
    name is not among the keywords raises KeyError. -/
def pyFormatTpl : List FmtPart → List (String × ℤ) → Except String String
  | [], _ => .ok ""
  | .lit s :: rest, args => do
    let r ← pyFormatTpl rest args
    pure (s ++ r)
  | .field name :: rest, args =>
    match args.lookup name with
    | some v => do
      let r ← pyFormatTpl rest args
      pure (toString v ++ r)
    | none => .error ("KeyError: " ++ name)

/-- The three struct-format templates of a binary reader variant
    (the struct.calcsize("L") == 8 branch, i.e. the "II" prefix). -/
structure BinTemplates where
  full : List FmtPart
  analogOnly : List FmtPart
  statusOnly : List FmtPart

/-- BinaryDatReader templates: "II -acount-h -dcount-H",
    "II -acount-h", "II -dcount-H" (braces written as dashes here). -/
def binary16Templates : BinTemplates :=
  { full := [.lit "II ", .field "acount", .lit "h ", .field "dcount", .lit "H"],
    analogOnly := [.lit "II ", .field "acount", .lit "h"],
    statusOnly := [.lit "II ", .field "dcount", .lit "H"] }

/-- Binary32DatReader overrides the analog field letter to "i"; the
    status-only template is inherited from BinaryDatReader. -/
def binary32Templates : BinTemplates :=
  { full := [.lit "II ", .field "acount", .lit "i ", .field "dcount", .lit "H"],
    analogOnly := [.lit "II ", .field "acount", .lit "i"],
    statusOnly := [.lit "II ", .field "dcount", .lit "H"] }

/-- Float32DatReader overrides the analog field letter to "f"; the
    status-only template is inherited from BinaryDatReader. -/
def float32Templates : BinTemplates :=
  { full := [.lit "II ", .field "acount", .lit "f ", .field "dcount", .lit "H"],
    analogOnly := [.lit "II ", .field "acount", .lit "f"],
    statusOnly := [.lit "II ", .field "dcount", .lit "H"] }

/-- Model of BinaryDatReader.get_reader_format: dcount is
    floor(status_bytes / 2); with both analog channels and status bytes
    the full template is used; with only analog channels the analog-only
    template; otherwise the status-only template is formatted with the
    keyword argument acount (not dcount). -/
def get_reader_format (tpl : BinTemplates) (analog_channels status_bytes : ℤ) :
    Except String String :=
  let dcount := Int.fdiv status_bytes 2
  if 0 < status_bytes ∧ 0 < analog_channels then
    pyFormatTpl tpl.full [("acount", analog_channels), ("dcount", dcount)]
  else if 0 < analog_channels then
    pyFormatTpl tpl.analogOnly [("acount", analog_channels)]
  else
    pyFormatTpl tpl.statusOnly [("acount", dcount)]

/-- One tuple produced by struct.iter_unpack on a binary DAT row: the
    4-byte unsigned sample number, the 4-byte unsigned timestamp, the
    analog fields (signed 16/32-bit integers or 32-bit floats, depending
    on the variant) and the unsigned 16-bit status groups. -/
structure BinRow where
  n : ℕ
  ts : ℕ
  analogs : List ℚ
  groups : List ℕ
deriving DecidableEq

/-- Bit extraction of BinaryDatReader.parse: (group AND (1 shifted left
    by chnindex)) shifted right by chnindex. -/
def statusExtract (group chnindex : ℕ) : ℕ :=
  (group &&& (1 <<< chnindex)) >>> chnindex

/-- Inner status loop of BinaryDatReader.parse for one 16-bit group:
    channels igroup*16 up to min((igroup+1)*16, status_count) receive the
    bit at position channel - igroup*16. -/
def writeStatusGroup (group : ℕ) (igroup : ℕ) (schannel : ℤ) (irow : ℕ)
    (status : List (List ℤ)) : List (List ℤ) :=
  let start := igroup * 16
  let count := (min (((igroup + 1) * 16 : ℕ) : ℤ) schannel - (start : ℤ)).toNat
  (List.range' start count).foldl
    (fun st ichannel =>
      setCell st ichannel irow ((statusExtract group (ichannel - start) : ℕ) : ℤ))
    status

/-- Outer status loop of BinaryDatReader.parse over the 16-bit groups of
    one row. -/
def writeStatusRow (groups : List ℕ) (groups_of_16bits : ℕ) (schannel : ℤ)
    (irow : ℕ) (status : List (List ℤ)) : List (List ℤ) :=
  (List.range groups_of_16bits).foldl
    (fun st igroup => writeStatusGroup (groups.getD igroup 0) igroup schannel irow st)
    status

/-- Ceiling of s / 16 on integers (math.ceil(schannel / 16.0)). -/
def ceilDiv16 (s : ℤ) : ℤ := Int.fdiv (s + 15) 16

/-- Row loop of BinaryDatReader.parse: each row's arity must match the
    struct format (iter_unpack guarantees it); the time is resolved
    before the sample-count break; analog values are scaled with the
    per-channel gains and offsets and status bits extracted groupwise. -/
def binaryParseGo (cfg : Cfg) (a b : List ℚ) (groups_of_16bits : ℕ) :
    List BinRow → ℕ → DatState → Except String DatState
  | [], _, st => .ok st
  | row :: rest, irow, st =>
    if row.analogs.length ≠ cfg.analog_count.toNat
       ∨ row.groups.length ≠ groups_of_16bits then
      .error "struct.error: row does not match the struct format"
    else do
      let ts ← dat_get_time cfg.timestamp_critical cfg.sample_rates (row.n : ℤ)
                 (row.ts : ℚ) cfg.time_base cfg.time_multiplier
      if (irow : ℤ) ≥ st.total then .ok st
      else do
        let time2 := st.time.set irow ts
        let analog2 ← (List.range cfg.analog_count.toNat).foldlM
            (fun m ichannel => do
              let yint ← pyIndex row.analogs ichannel
              let ai ← pyIndex a ichannel
              let bi ← pyIndex b ichannel
              pure (setCell m ichannel irow (ai * yint + bi))) st.analog
        let status2 := writeStatusRow row.groups groups_of_16bits cfg.status_count
                         irow st.status
        binaryParseGo cfg a b groups_of_16bits rest (irow + 1)
          { time := time2, analog := analog2, status := status2, total := st.total }

/-- Model of BinaryDatReader.parse: build the struct format (this raises
    for a status-only or channel-less configuration), derive the number
    of 16-bit groups from the status byte count, and run the row loop. -/
def binaryParse (rows : List BinRow) (cfg : Cfg) (tpl : BinTemplates)
    (st : DatState) : Except String DatState := do
  let a := cfg.analog_channels.map (fun c => c.a)
  let b := cfg.analog_channels.map (fun c => c.b)
  let dbytes : ℤ := 2 * ceilDiv16 cfg.status_count
  let _fmt ← get_reader_format tpl cfg.analog_count dbytes
  let groups_of_16bits := (Int.fdiv dbytes 2).toNat
  binaryParseGo cfg a b groups_of_16bits rows 0 st

/-- The four DAT decoder variants. -/
inductive DatFormat
  | ascii
  | binary
  | binary32
  | float32
deriving DecidableEq

/-- Python str.upper on one character (ASCII range; the four known format
    tags contain only ASCII letters). -/
def pyCharUpper (c : Char) : Char :=
  if 'a' ≤ c ∧ c ≤ 'z' then Char.ofNat (c.toNat - 32) else c

/-- Python str.upper on a string. -/
def pyUpper (s : String) : String := String.mk (s.data.map pyCharUpper)

/-- Model of Comtrade._get_dat_reader: the format tag is upper-cased and
    compared with the four known tags; every other tag raises. -/
def get_dat_reader (ft : String) : Except String DatFormat :=
  let ft_upper := pyUpper ft
  if ft_upper = TYPE_ASCII then .ok .ascii
  else if ft_upper = TYPE_BINARY then .ok .binary
  else if ft_upper = TYPE_BINARY32 then .ok .binary32
  else if ft_upper = TYPE_FLOAT32 then .ok .float32
  else .error ("Exception: Not supported data file format: " ++ ft)

/-- DAT payload handed to a decoder: text lines for the ASCII variant,
    unpacked binary rows for the binary variants. -/
inductive DatContents
  | text (lines : List String)
  | bin (rows : List BinRow)

/-- Model of DatReader.read for the decoder selected by the dispatch:
    preallocate from the configuration, then parse with the variant's
    parser (a text stream for the ASCII reader, unpacked rows for the
    binary readers). -/
def datRead : DatFormat → DatContents → Cfg → Except String DatState
  | .ascii, .text lines, cfg => do
    let st ← dat_preallocate cfg
    asciiParse cfg lines st
  | .binary, .bin rows, cfg => do
    let st ← dat_preallocate cfg
    binaryParse rows cfg binary16Templates st
  | .binary32, .bin rows, cfg => do
    let st ← dat_preallocate cfg
    binaryParse rows cfg binary32Templates st
  | .float32, .bin rows, cfg => do
    let st ← dat_preallocate cfg
    binaryParse rows cfg float32Templates st
  | _, _, _ => .error "TypeError: contents do not match the selected reader"

/-- Model of Comtrade.read: parse the configuration, select the decoder
    from its format tag, decode the data. -/
def comtradeRead (cfg_lines : List String) (contents : DatContents)
    (ignore_warnings : Bool) : Except String (Cfg × DatState × List CWarning) := do
  let (cfg, ws) ← readCfgLines cfg_lines ignore_warnings
  let fmt ← get_dat_reader cfg.ft
  let st ← datRead fmt contents cfg
  pure (cfg, st, ws)

/-- Python file.read(k) on a remaining byte sequence: a negative count
    reads to the end of the file. Returns (bytes read, rest). -/
def pyRead (l : List α) (k : ℤ) : List α × List α :=
  if k < 0 then (l, []) else (l.take k.toNat, l.drop k.toNat)

/-- Model of the binary branch of Comtrade._load_cff (lines 914-919):
    the whole physical file is reopened in binary mode, total size minus
    the declared byte count bytes are consumed, and the declared byte
    count is read as the binary DAT segment. -/
def cffDatBytes (fileBytes : List ℕ) (fbytes : ℕ) : List ℕ :=
  let total_bytes : ℤ := fileBytes.length
  let cff_bytes_read := total_bytes - fbytes
  let r1 := pyRead fileBytes cff_bytes_read
  (pyRead r1.2 (fbytes : ℤ)).1

/-- Time-resolution rule exactly as the claim states it: compute from the
    sample index when the sentinel is NOT set and the raw timestamp
    equals the missing-value constant, or when the sentinel IS set;
    otherwise use raw * time_base * time_multiplier. The rate is taken
    from the first sample rate pair whose bound is at least the index. -/
def getTimeClaimSpec (timestamp_critical : Bool) (sample_rates : List (ℚ × ℤ))
    (n : ℤ) (ts_value : ℚ) (time_base : ℚ) (time_multiplier : ℚ) :
    Except String ℚ :=
  if (timestamp_critical = false ∧ ts_value = (TIMESTAMP_MISSING : ℕ))
     ∨ timestamp_critical = true then
    let rate := ((sample_rates.find? (fun r => n ≤ r.2)).map Prod.fst).getD 1
    if rate = 0 then .error "Missing timestamp and no sample rate provided."
    else .ok (((n : ℚ) - 1) / rate)
  else .ok (ts_value * time_base * time_multiplier)

/-- Time-resolution rule as amended: compute from the sample index when
    the sentinel is NOT set, or when the raw timestamp equals the
    missing-value constant; otherwise (sentinel set and a real timestamp
    present) use raw * time_base * time_multiplier. -/
def getTimeAmendedSpec (timestamp_critical : Bool) (sample_rates : List (ℚ × ℤ))
    (n : ℤ) (ts_value : ℚ) (time_base : ℚ) (time_multiplier : ℚ) :
    Except String ℚ :=
  if timestamp_critical = false ∨ ts_value = (TIMESTAMP_MISSING : ℕ) then
    let rate := ((sample_rates.find? (fun r => n ≤ r.2)).map Prod.fst).getD 1
    if rate = 0 then .error "Missing timestamp and no sample rate provided."
    else .ok (((n : ℚ) - 1) / rate)
  else .ok (ts_value * time_base * time_multiplier)

/-- Decidable equality for Except results, so concrete runs of the
    embedded functions can be checked by decide. -/
instance exceptDecEq {ε α : Type} [DecidableEq ε] [DecidableEq α] :
    DecidableEq (Except ε α)
  | .error e, .error f =>
    if h : e = f then .isTrue (by rw [h])
    else .isFalse (by intro c; injection c; contradiction)
  | .error e, .ok b => .isFalse (by intro c; injection c)
  | .ok a, .error f => .isFalse (by intro c; injection c)
  | .ok a, .ok b =>
    if h : a = b then .isTrue (by rw [h])
    else .isFalse (by intro c; injection c; contradiction)

/-- A configuration with no analog channels and one status channel
    (the status-only shape of claim C4). -/
def statusOnlyCfg : Cfg :=
  { station_name := "ST", rec_dev_id := "DEV", rev_year := "1999",
    channels_count := 1, analog_count := 0, status_count := 1,
    analog_channels := [], status_channels := [⟨1, "S1", "", "", 0⟩],
    frequency := 60, nrates := 1, sample_rates := [(1000, 2)],
    timestamp_critical := false,
    start_timestamp := ⟨2000, 1, 1, 0, 0, 0, 0⟩,
    trigger_timestamp := ⟨2000, 1, 1, 0, 0, 0, 0⟩,
    time_base := 1 / 1000000, ft := "BINARY", time_multiplier := 1,
    time_code := "0", local_code := "0", tmq_code := "0", leap_second := "0" }

/-- A configuration stream whose single sample-rate line declares the
    negative end-sample index -5 (Python int() accepts it; nothing in the
    parser rejects it). -/
def c2CfgLinesNeg : List String :=
  ["STATION,DEV", "0,0A,0D", "60", "1", "1000,-5",
   "01/01/2000,10:30:00.228000", "01/01/2000,10:30:00.228000", "ASCII"]

/-- A configuration stream whose second line declares total 5 but only 2
    analog and 1 status channels; every line parses. -/
def c3CfgLinesBad : List String :=
  ["STATION,DEV", "5,2A,1D",
   "1,IA,A,c,V,1.0,0.0,0.0,-100,100,1.0,1.0,P",
   "2,IB,B,c,V,1.0,0.0,0.0,-100,100,1.0,1.0,P",
   "1,S1,,,0", "60", "1", "1000,4",
   "01/01/2000,10:30:00.228000", "01/01/2000,10:30:00.228000", "ASCII"]

/-- A well-formed configuration stream with consistent channel counts and
    a two-field first line (no revision field). -/
def cfgLinesConsistent : List String :=
  ["STATION,DEV", "2,1A,1D",
   "1,IA,A,c,V,1.0,0.0,0.0,-100,100,1.0,1.0,P",
   "1,S1,,,0", "60", "1", "1000,4",
   "01/01/2000,10:30:00.228000", "01/01/2000,10:30:00.228000", "ASCII"]

/-- A small well-formed configuration record: one analog and one status
    channel, one rate segment of 1000 Hz ending at sample 4, ASCII data. -/
def simpleAsciiCfg : Cfg :=
  { station_name := "ST", rec_dev_id := "DEV", rev_year := "1999",
    channels_count := 2, analog_count := 1, status_count := 1,
    analog_channels := [⟨1, 1, 0, 0, -100, 100, "IA", "V", "A", "c", 1, 1, "P"⟩],
    status_channels := [⟨1, "S1", "", "", 0⟩],
    frequency := 60, nrates := 1, sample_rates := [(1000, 4)],
    timestamp_critical := false,
    start_timestamp := ⟨2000, 1, 1, 0, 0, 0, 0⟩,
    trigger_timestamp := ⟨2000, 1, 1, 0, 0, 0, 0⟩,
    time_base := 1 / 1000000, ft := "ASCII", time_multiplier := 1,
    time_code := "0", local_code := "0", tmq_code := "0", leap_second := "0" }

/-- The decoded state of simpleAsciiCfg with an empty data stream. -/
def c2WitnessState : DatState :=
  { time := List.replicate 4 0, analog := [List.replicate 4 0],
    status := [List.replicate 4 0], total := 4 }

/-- The configuration record that cfgLinesConsistent parses to. -/
def consistentCfg : Cfg :=
  { station_name := "STATION", rec_dev_id := "DEV", rev_year := "1991",
    channels_count := 2, analog_count := 1, status_count := 1,
    analog_channels := [⟨1, 1, 0, 0, -100, 100, "IA", "V", "A", "c", 1, 1, "P"⟩],
    status_channels := [⟨1, "S1", "", "", 0⟩],
    frequency := 60, nrates := 1, sample_rates := [(1000, 4)],
    timestamp_critical := false,
    start_timestamp := ⟨2000, 1, 1, 10, 30, 0, 228000⟩,
    trigger_timestamp := ⟨2000, 1, 1, 10, 30, 0, 228000⟩,
    time_base := 1 / 1000000, ft := "ASCII", time_multiplier := 1,
    time_code := "0", local_code := "0", tmq_code := "0", leap_second := "0" }

theorem bindOk {α β : Type} {x : Except String α} {f : α → Except String β} {c : β}
    (h : x >>= f = .ok c) : ∃ b, x = .ok b ∧ f b = .ok c := by
  cases x with
  | ok a => exact ⟨a, rfl, h⟩
  | error e => simp [Bind.bind, Except.bind] at h

theorem setCell_length (m : List (List α)) (i row : ℕ) (v : α) :
    (setCell m i row v).length = m.length := by
  simp [setCell]

theorem getD_setCell_ne (m : List (List α)) {i k : ℕ} (row : ℕ) (v : α) (h : i ≠ k) :
    (setCell m i row v).getD k [] = m.getD k [] := by
  simp [setCell, List.getD_eq_getElem?_getD, List.getElem?_set_ne h]

theorem getD_setCell_self (m : List (List α)) {i : ℕ} (row : ℕ) (v : α)
    (h : i < m.length) :
    (setCell m i row v).getD i [] = (m.getD i []).set row v := by
  simp [setCell, List.getD_eq_getElem?_getD, List.getElem?_set_self h]

theorem length_getD_setCell (m : List (List α)) (i k row : ℕ) (v : α) :
    ((setCell m i row v).getD k []).length = (m.getD k []).length := by
  by_cases h : i = k
  · subst h
    by_cases hl : i < m.length
    · rw [getD_setCell_self _ _ _ hl, List.length_set]
    · unfold setCell
      rw [List.set_eq_of_length_le (Nat.le_of_not_lt hl)]
  · rw [getD_setCell_ne _ _ _ h]

theorem foldl_setCell_getD_not_mem (val : ℕ → α) (row : ℕ) :
    ∀ (l : List ℕ) (m : List (List α)) (k : ℕ), k ∉ l →
      ((l.foldl (fun st i => setCell st i row (val i)) m).getD k []) = m.getD k [] := by
  intro l
  induction l with
  | nil => intro m k _; rfl
  | cons i t ih =>
    intro m k hk
    rw [List.foldl_cons, ih _ _ (fun h => hk (List.mem_cons_of_mem _ h))]
    exact getD_setCell_ne _ _ _ (fun h => hk (h ▸ List.mem_cons_self i t))

theorem foldl_setCell_length (val : ℕ → α) (row : ℕ) :
    ∀ (l : List ℕ) (m : List (List α)),
      (l.foldl (fun st i => setCell st i row (val i)) m).length = m.length := by
  intro l
  induction l with
  | nil => intro m; rfl
  | cons i t ih => intro m; rw [List.foldl_cons, ih, setCell_length]

theorem foldl_setCell_getD_length (val : ℕ → α) (row : ℕ) :
    ∀ (l : List ℕ) (m : List (List α)) (k : ℕ),
      ((l.foldl (fun st i => setCell st i row (val i)) m).getD k []).length
        = (m.getD k []).length := by
  intro l
  induction l with
  | nil => intro m k; rfl
  | cons i t ih => intro m k; rw [List.foldl_cons, ih, length_getD_setCell]

theorem foldl_setCell_getD_mem (val : ℕ → α) (row : ℕ) (d : α) :
    ∀ (l : List ℕ) (m : List (List α)) (k : ℕ), k ∈ l → k < m.length →
      row < (m.getD k []).length →
      ((l.foldl (fun st i => setCell st i row (val i)) m).getD k []).getD row d
        = val k := by
  intro l
  induction l with
  | nil => intro m k hk; exact absurd hk (List.not_mem_nil k)
  | cons i t ih =>
    intro m k hk hklen hrow
    rw [List.foldl_cons]
    by_cases hkt : k ∈ t
    · exact ih _ k hkt (by rw [setCell_length]; exact hklen)
        (by rw [length_getD_setCell]; exact hrow)
    · have hik : k = i := (List.mem_cons.mp hk).resolve_right hkt
      subst hik
      rw [foldl_setCell_getD_not_mem _ _ _ _ _ hkt, getD_setCell_self _ _ _ hklen]
      simp only [List.getD_eq_getElem?_getD] at hrow
      simp [List.getD_eq_getElem?_getD, List.getElem?_set_self hrow]

theorem statusExtract_eq_testBit (g i : ℕ) :
    statusExtract g i = (g.testBit i).toNat := by
  unfold statusExtract
  rw [Nat.one_shiftLeft, Nat.and_two_pow, Nat.shiftRight_eq_div_pow,
    Nat.mul_div_cancel _ (Nat.two_pow_pos i)]

theorem writeStatusGroup_getD_not_mem (group igroup : ℕ) (schannel : ℤ) (irow : ℕ)
    (status : List (List ℤ)) (k : ℕ)
    (h : k < igroup * 16 ∨ min (((igroup + 1) * 16 : ℕ) : ℤ) schannel ≤ (k : ℤ)) :
    (writeStatusGroup group igroup schannel irow status).getD k [] = status.getD k [] := by
  unfold writeStatusGroup
  apply foldl_setCell_getD_not_mem
  intro hmem
  obtain ⟨j, hj, hkj⟩ := List.mem_range'.mp hmem
  omega

theorem writeStatusGroup_length (group igroup : ℕ) (schannel : ℤ) (irow : ℕ)
    (status : List (List ℤ)) :
    (writeStatusGroup group igroup schannel irow status).length = status.length := by
  unfold writeStatusGroup
  apply foldl_setCell_length

theorem writeStatusGroup_getD_length (group igroup : ℕ) (schannel : ℤ) (irow : ℕ)
    (status : List (List ℤ)) (k : ℕ) :
    ((writeStatusGroup group igroup schannel irow status).getD k []).length
      = (status.getD k []).length := by
  unfold writeStatusGroup
  apply foldl_setCell_getD_length

theorem writeStatusRow_length (groups : List ℕ) (g16 : ℕ) (schannel : ℤ) (irow : ℕ)
    (status : List (List ℤ)) :
    (writeStatusRow groups g16 schannel irow status).length = status.length := by
  unfold writeStatusRow
  induction g16 with
  | zero => rfl
  | succ g ih =>
    rw [List.range_succ, List.foldl_append, List.foldl_cons, List.foldl_nil,
      writeStatusGroup_length, ih]

theorem writeStatusRow_getD_length (groups : List ℕ) (g16 : ℕ) (schannel : ℤ)
    (irow : ℕ) (status : List (List ℤ)) (k : ℕ) :
    ((writeStatusRow groups g16 schannel irow status).getD k []).length
      = (status.getD k []).length := by
  unfold writeStatusRow
  induction g16 with
  | zero => rfl
  | succ g ih =>
    rw [List.range_succ, List.foldl_append, List.foldl_cons, List.foldl_nil,
      writeStatusGroup_getD_length, ih]

theorem writeStatusRow_getD_high (groups : List ℕ) (schannel : ℤ) (irow : ℕ) (k : ℕ) :
    ∀ (g16 : ℕ) (status : List (List ℤ)), 16 * g16 ≤ k →
      (writeStatusRow groups g16 schannel irow status).getD k [] = status.getD k [] := by
  intro g16
  induction g16 with
  | zero => intro status _; rfl
  | succ g ih =>
    intro status hk
    unfold writeStatusRow at ih ⊢
    rw [List.range_succ, List.foldl_append, List.foldl_cons, List.foldl_nil]
    rw [writeStatusGroup_getD_not_mem _ _ _ _ _ _ (Or.inr (by push_cast; omega))]
    exact ih status (by omega)

theorem writeStatusRow_succ (groups : List ℕ) (g : ℕ) (schannel : ℤ) (irow : ℕ)
    (status : List (List ℤ)) :
    writeStatusRow groups (g + 1) schannel irow status
      = writeStatusGroup (groups.getD g 0) g schannel irow
          (writeStatusRow groups g schannel irow status) := by
  unfold writeStatusRow
  rw [List.range_succ, List.foldl_append, List.foldl_cons, List.foldl_nil]

/-- C5: in the binary decoders, status bits are extracted LSB-first: the
    value stored for 0-based global status channel k is bit (k mod 16) of
    the 16-bit status group numbered (k div 16), for every channel within
    the configured status count that is covered by the row's groups. -/
theorem c5_status_bits_lsb_first (groups : List ℕ) (g16 : ℕ) (schannel : ℤ)
    (irow : ℕ) (status : List (List ℤ)) (k : ℕ)
    (hk : (k : ℤ) < schannel) (hg : k / 16 < g16) (hklen : k < status.length)
    (hrow : irow < (status.getD k []).length) :
    ((writeStatusRow groups g16 schannel irow status).getD k []).getD irow 0
      = (((groups.getD (k / 16) 0).testBit (k % 16)).toNat : ℤ) := by
  revert hg
  induction g16 with
  | zero => omega
  | succ g ih =>
    intro hg
    by_cases hlt : k / 16 < g
    · rw [writeStatusRow_succ,
        writeStatusGroup_getD_not_mem _ _ _ _ _ _ (Or.inl (by omega))]
      exact ih hlt
    · have hg16 : k / 16 = g := by omega
      rw [writeStatusRow_succ]
      have hmem : k ∈ List.range' (g * 16)
          ((min (((g + 1) * 16 : ℕ) : ℤ) schannel - ((g * 16 : ℕ) : ℤ)).toNat) := by
        rw [List.mem_range']
        exact ⟨k - g * 16, by omega, by omega⟩
      have hlen2 : k < (writeStatusRow groups g schannel irow status).length := by
        rw [writeStatusRow_length]
        exact hklen
      have hrow2 : irow < ((writeStatusRow groups g schannel irow status).getD k []).length := by
        rw [writeStatusRow_getD_length]
        exact hrow
      have hval := foldl_setCell_getD_mem
        (fun ich => ((statusExtract (groups.getD g 0) (ich - g * 16) : ℕ) : ℤ)) irow (0 : ℤ)
        (List.range' (g * 16)
          ((min (((g + 1) * 16 : ℕ) : ℤ) schannel - ((g * 16 : ℕ) : ℤ)).toNat))
        (writeStatusRow groups g schannel irow status) k hmem hlen2 hrow2
      have hmod : k - g * 16 = k % 16 := by omega
      calc ((writeStatusGroup (groups.getD g 0) g schannel irow
              (writeStatusRow groups g schannel irow status)).getD k []).getD irow 0
          = ((statusExtract (groups.getD g 0) (k - g * 16) : ℕ) : ℤ) := hval
        _ = (((groups.getD (k / 16) 0).testBit (k % 16)).toNat : ℤ) := by
            rw [statusExtract_eq_testBit, hmod, hg16]

/-- Witness for C5 at the spec's example: one status group with value
    0b0000000000000011 and 16 configured channels stores 1 for channels 0
    and 1 and 0 for channel 2 (and bit extraction gives 0 for 3..15). -/
theorem c5_status_bits_lsb_first_witness :
    ((writeStatusRow [3] 1 16 0 (List.replicate 16 [(0 : ℤ)])).getD 0 []).getD 0 0 = 1
    ∧ ((writeStatusRow [3] 1 16 0 (List.replicate 16 [(0 : ℤ)])).getD 1 []).getD 0 0 = 1
    ∧ ((writeStatusRow [3] 1 16 0 (List.replicate 16 [(0 : ℤ)])).getD 2 []).getD 0 0 = 0 :=
  ⟨(c5_status_bits_lsb_first [3] 1 16 0 (List.replicate 16 [(0 : ℤ)]) 0
      (by decide) (by decide) (by decide) (by decide)).trans (by decide),
   (c5_status_bits_lsb_first [3] 1 16 0 (List.replicate 16 [(0 : ℤ)]) 1
      (by decide) (by decide) (by decide) (by decide)).trans (by decide),
   (c5_status_bits_lsb_first [3] 1 16 0 (List.replicate 16 [(0 : ℤ)]) 2
      (by decide) (by decide) (by decide) (by decide)).trans (by decide)⟩

/-- C7: a record whose timestamp field equals the 0xFFFFFFFF sentinel,
    with sample index 5 and a single rate segment of 1000 Hz covering
    that index, gets the computed time (5-1)/1000 = 0.004 seconds,
    whatever the sentinel flag, time base and multiplier are. -/
theorem c7_missing_timestamp_computed_time (critical : Bool) (endsamp : ℤ)
    (base mult : ℚ) (h : 5 ≤ endsamp) :
    dat_get_time critical [(1000, endsamp)] 5 ((TIMESTAMP_MISSING : ℕ) : ℚ) base mult
      = .ok (4 / 1000) := by
  have hs : dat_get_samp [((1000 : ℚ), endsamp)] 5 = 1000 := by
    simp [dat_get_samp, h]
  simp only [dat_get_time, hs]
  simp only [or_true, if_true]
  norm_num

/-- Witness for C7 with the sentinel flag set and bound 10. -/
theorem c7_missing_timestamp_computed_time_witness :
    (5 : ℤ) ≤ 10
    ∧ dat_get_time true [(1000, 10)] 5 ((TIMESTAMP_MISSING : ℕ) : ℚ) (1 / 1000000) 1
        = .ok (4 / 1000) :=
  ⟨by decide, c7_missing_timestamp_computed_time true 10 (1 / 1000000) 1 (by decide)⟩

/-- Counterexample to C1 as stated: with the authoritative-timestamp
    sentinel NOT set and a present (non-missing) raw timestamp 7, the
    code computes (5-1)/1000 from the sample index, while the claim's
    rule demands raw * time_base * time_multiplier = 7/1000000. -/
theorem c1_counterexample :
    dat_get_time false [(1000, 10)] 5 7 (1 / 1000000) 1 = .ok (1 / 250)
    ∧ getTimeClaimSpec false [(1000, 10)] 5 7 (1 / 1000000) 1 = .ok (7 / 1000000)
    ∧ dat_get_time false [(1000, 10)] 5 7 (1 / 1000000) 1
        ≠ getTimeClaimSpec false [(1000, 10)] 5 7 (1 / 1000000) 1 := by
  have hs : dat_get_samp [((1000 : ℚ), (10 : ℤ))] 5 = 1000 := by
    norm_num [dat_get_samp]
  have h1 : dat_get_time false [(1000, 10)] 5 7 (1 / 1000000) 1 = .ok (1 / 250) := by
    simp only [dat_get_time, hs]
    simp only [true_or, if_true]
    rw [if_pos (by norm_num : (1000 : ℚ) ≠ 0)]
    norm_num
  have h2 : getTimeClaimSpec false [(1000, 10)] 5 7 (1 / 1000000) 1
      = .ok (7 / 1000000) := by
    simp only [getTimeClaimSpec]
    rw [if_neg (by norm_num [TIMESTAMP_MISSING])]
    norm_num
  refine ⟨h1, h2, by
    rw [h1, h2]
    intro hcon
    injection hcon with hv
    exact absurd hv (by norm_num)⟩

/-- C1 (amended): for every record of every variant, the time is computed
    from the sample index exactly when the sentinel is NOT set or the raw
    timestamp equals 0xFFFFFFFF ((index-1) divided by the rate of the
    first segment whose bound is at least the index, defaulting to 1,
    fatal when that rate is 0); otherwise it is raw * base * multiplier. -/
theorem c1_time_resolution_amended (critical : Bool) (rates : List (ℚ × ℤ))
    (n : ℤ) (ts base mult : ℚ) :
    dat_get_time critical rates n ts base mult
      = getTimeAmendedSpec critical rates n ts base mult := by
  have hsamp : ∀ rs : List (ℚ × ℤ),
      dat_get_samp rs n = ((rs.find? (fun r => n ≤ r.2)).map Prod.fst).getD 1 := by
    intro rs
    induction rs with
    | nil => rfl
    | cons hd tl ih =>
      obtain ⟨s, e⟩ := hd
      by_cases h : n ≤ e
      · simp [dat_get_samp, List.find?_cons, h]
      · simp [dat_get_samp, List.find?_cons, h, ih]
  simp only [dat_get_time, getTimeAmendedSpec, hsamp]
  by_cases hc : critical = false ∨ ts = ((TIMESTAMP_MISSING : ℕ) : ℚ)
  · rw [if_pos hc, if_pos hc]
    by_cases hr : (((rates.find? (fun r => n ≤ r.2)).map Prod.fst).getD 1) = 0
    · rw [if_neg (not_not_intro hr), if_pos hr]
    · rw [if_pos hr, if_neg hr]
  · rw [if_neg hc, if_neg hc]

/-- C4: evaluating the code's struct-format construction at a status-only
    configuration (no analog channels, one status channel, hence 2 status
    bytes): the status-only template's dcount placeholder is filled with
    the keyword acount, so the format raises KeyError and the whole
    binary decode fails instead of reading index + timestamp + status
    groups. -/
theorem c4_status_only_keyerror :
    get_reader_format binary16Templates 0 2 = .error "KeyError: dcount"
    ∧ datRead .binary (.bin [⟨1, 0, [], [0]⟩]) statusOnlyCfg
        = .error "KeyError: dcount" := by
  refine ⟨by decide, by decide⟩

/-- C9: for a combined file whose binary DAT section declares byte-count
    N = the data segment's length, the demultiplexer isolates exactly the
    last N bytes of the physical file (start offset = total size minus
    N), regardless of the content that precedes them. -/
theorem c9_cff_binary_slice (pre seg : List ℕ) :
    cffDatBytes (pre ++ seg) seg.length = seg
    ∧ (cffDatBytes (pre ++ seg) seg.length).length = seg.length := by
  have h1 : cffDatBytes (pre ++ seg) seg.length = seg := by
    simp only [cffDatBytes, pyRead]
    have hnotneg : ¬(((pre ++ seg).length : ℤ) - (seg.length : ℤ) < 0) := by
      simp [List.length_append]
    have htn : (((pre ++ seg).length : ℤ) - (seg.length : ℤ)).toNat = pre.length := by
      simp [List.length_append]
    rw [if_neg hnotneg]
    simp only [htn, List.drop_left]
    rw [if_neg (by omega : ¬((seg.length : ℤ) < 0))]
    simp [Int.toNat_natCast]
  exact ⟨h1, by rw [h1]⟩

theorem natOfDigits_foldl_zeros (k : ℕ) :
    ∀ a : ℕ, (List.replicate k '0').foldl (fun a c => 10 * a + (c.toNat - 48)) a
      = a * 10 ^ k := by
  induction k with
  | zero => intro a; simp
  | succ n ih =>
    intro a
    rw [List.replicate_succ, List.foldl_cons, ih]
    have hz : '0'.toNat - 48 = 0 := rfl
    rw [hz, pow_succ]
    ring

theorem natOfDigits_append_zeros (l : List Char) (k : ℕ) :
    natOfDigits (l ++ List.replicate k '0') = natOfDigits l * 10 ^ k := by
  unfold natOfDigits
  rw [List.foldl_append, natOfDigits_foldl_zeros]

theorem fill_data_of_lt (s : String) (w : ℕ) (h : s.length < w) :
    (fill_with_zeros_to_the_right s w).data
      = s.data ++ List.replicate (w - s.length) '0' := by
  simp [fill_with_zeros_to_the_right, h]

theorem fill_eq_of_le (s : String) (w : ℕ) (h : w ≤ s.length) :
    fill_with_zeros_to_the_right s w = s := by
  simp [fill_with_zeros_to_the_right]
  omega

theorem fill_length (s : String) (w : ℕ) :
    (fill_with_zeros_to_the_right s w).length = max s.length w := by
  by_cases h : s.length < w
  · have := fill_data_of_lt s w h
    have hlen : (fill_with_zeros_to_the_right s w).length
        = (fill_with_zeros_to_the_right s w).data.length := rfl
    rw [hlen, this]
    have h2 : (s.data ++ List.replicate (w - s.length) '0').length
        = s.data.length + (w - s.length) := by simp
    have h3 : s.data.length = s.length := rfl
    omega
  · rw [fill_eq_of_le s w (by omega)]
    omega

/-- Counterexample to C6 as stated: the 10-digit fraction "1234567890" is
    in the claim's 1-12 digit range and longer than 6 digits, but the
    padding step does not produce a 9-digit string (the string is
    returned unchanged with 10 digits), and the stored microsecond value
    1234567 exceeds every truncation of a 9-digit value to microsecond
    precision (those are below 10^6). -/
theorem c6_counterexample :
    fill_with_zeros_to_the_right "1234567890" 9 = "1234567890"
    ∧ (fill_with_zeros_to_the_right "1234567890" 9).length ≠ 9
    ∧ fracToMicro "1234567890" false = (1234567, true, [CWarning.datetimeNano])
    ∧ 1000000 ≤ (fracToMicro "1234567890" false).1 :=
  ⟨by decide, by decide, by decide, by decide⟩

/-- C6 (amended): for every fraction of 1 to 12 digits: at most 6 digits
    pad right with zeros to 6 digits (value scaled by 10^(6-len)),
    nanosecond flag false, no warning; 7 to 9 digits pad right to 9
    digits, nanosecond flag true, stored microsecond value is the padded
    9-digit value truncated by integer division by 1000, with the
    non-fatal precision-loss warning; 10 to 12 digits are left unchanged,
    nanosecond flag true, stored value is the value divided by 1000, with
    the same warning. -/
theorem c6_fraction_rule (s : String) (h1 : 1 ≤ s.length) (h12 : s.length ≤ 12) :
    (s.length ≤ 6 →
       fracToMicro s false = (natOfDigits s.data * 10 ^ (6 - s.length), false, []))
    ∧ (7 ≤ s.length → s.length ≤ 9 →
       fracToMicro s false
         = ((natOfDigits s.data * 10 ^ (9 - s.length)) / 1000, true,
            [CWarning.datetimeNano]))
    ∧ (10 ≤ s.length →
       fracToMicro s false
         = (natOfDigits s.data / 1000, true, [CWarning.datetimeNano])) := by
  refine ⟨?_, ?_, ?_⟩
  · intro h6
    have hlen : (fill_with_zeros_to_the_right s 6).length = 6 := by
      rw [fill_length]; omega
    have hval : natOfDigits (fill_with_zeros_to_the_right s 6).data
        = natOfDigits s.data * 10 ^ (6 - s.length) := by
      by_cases h : s.length < 6
      · rw [fill_data_of_lt _ _ h, natOfDigits_append_zeros]
      · have h6e : 6 - s.length = 0 := by omega
        rw [fill_eq_of_le _ _ (by omega), h6e]
        simp
    simp only [fracToMicro, if_pos h6, hval, hlen]
    norm_num
  · intro h7 h9
    have hlen : (fill_with_zeros_to_the_right s 9).length = 9 := by
      rw [fill_length]; omega
    have hval : natOfDigits (fill_with_zeros_to_the_right s 9).data
        = natOfDigits s.data * 10 ^ (9 - s.length) := by
      by_cases h : s.length < 9
      · rw [fill_data_of_lt _ _ h, natOfDigits_append_zeros]
      · have h9e : 9 - s.length = 0 := by omega
        rw [fill_eq_of_le _ _ (by omega), h9e]
        simp
    simp only [fracToMicro, if_neg (by omega : ¬s.length ≤ 6), hval, hlen]
    norm_num
  · intro h10
    have heq : fill_with_zeros_to_the_right s 9 = s := fill_eq_of_le _ _ (by omega)
    simp only [fracToMicro, if_neg (by omega : ¬s.length ≤ 6), heq]
    rw [if_pos (by omega : s.length > 6)]
    norm_num

/-- Witness for C6 at the spec's example fraction .123456789: nanosecond
    flag set, stored value truncated to 123456 microseconds, with the
    precision-loss warning. -/
theorem c6_fraction_rule_witness :
    (1 ≤ ("123456789" : String).length ∧ ("123456789" : String).length ≤ 12)
    ∧ fracToMicro "123456789" false = (123456, true, [CWarning.datetimeNano]) :=
  ⟨⟨by decide, by decide⟩,
   ((c6_fraction_rule "123456789" (by decide) (by decide)).2.1 (by decide)
      (by decide)).trans (by decide)⟩

/-- C8: decoder selection upper-cases the data-format tag and matches it
    against the four known formats: each variant is selected exactly when
    the upper-cased tag equals its constant (so matching is
    case-insensitive), and every tag matching none of the four raises the
    fatal unsupported-format error. -/
theorem c8_format_dispatch (ft : String) :
    (get_dat_reader ft = .ok .ascii ↔ pyUpper ft = TYPE_ASCII)
    ∧ (get_dat_reader ft = .ok .binary ↔ pyUpper ft = TYPE_BINARY)
    ∧ (get_dat_reader ft = .ok .binary32 ↔ pyUpper ft = TYPE_BINARY32)
    ∧ (get_dat_reader ft = .ok .float32 ↔ pyUpper ft = TYPE_FLOAT32)
    ∧ (pyUpper ft ≠ TYPE_ASCII → pyUpper ft ≠ TYPE_BINARY →
        pyUpper ft ≠ TYPE_BINARY32 → pyUpper ft ≠ TYPE_FLOAT32 →
        get_dat_reader ft
          = .error ("Exception: Not supported data file format: " ++ ft)) := by
  unfold get_dat_reader
  by_cases h1 : pyUpper ft = TYPE_ASCII <;>
    by_cases h2 : pyUpper ft = TYPE_BINARY <;>
      by_cases h3 : pyUpper ft = TYPE_BINARY32 <;>
        by_cases h4 : pyUpper ft = TYPE_FLOAT32 <;>
          simp_all [TYPE_ASCII, TYPE_BINARY, TYPE_BINARY32, TYPE_FLOAT32]

/-- Witness for C8: a mixed-case tag selects the Binary16 decoder; an
    unknown tag raises the fatal error. -/
theorem c8_format_dispatch_witness :
    get_dat_reader "bInArY" = .ok .binary
    ∧ get_dat_reader "CSV"
        = .error ("Exception: Not supported data file format: " ++ "CSV") :=
  ⟨((c8_format_dispatch "bInArY").2.1).mpr (by decide),
   (c8_format_dispatch "CSV").2.2.2.2 (by decide) (by decide) (by decide) (by decide)⟩

theorem map_length_setCell (m : List (List α)) (i row : ℕ) (v : α) :
    (setCell m i row v).map List.length = m.map List.length := by
  induction m generalizing i with
  | nil => rfl
  | cons h t ih =>
    cases i with
    | zero => simp [setCell]
    | succ j =>
      have : setCell (h :: t) (j + 1) row v = h :: setCell t j row v := by
        simp [setCell]
      rw [this, List.map_cons, List.map_cons, ih]

theorem foldl_setCell_map_length (val : ℕ → α) (row : ℕ) :
    ∀ (l : List ℕ) (m : List (List α)),
      ((l.foldl (fun st i => setCell st i row (val i)) m).map List.length)
        = m.map List.length := by
  intro l
  induction l with
  | nil => intro m; rfl
  | cons i t ih => intro m; rw [List.foldl_cons, ih, map_length_setCell]

theorem writeStatusGroup_map_length (group igroup : ℕ) (schannel : ℤ) (irow : ℕ)
    (status : List (List ℤ)) :
    (writeStatusGroup group igroup schannel irow status).map List.length
      = status.map List.length := by
  unfold writeStatusGroup
  apply foldl_setCell_map_length

theorem writeStatusRow_map_length (groups : List ℕ) (g16 : ℕ) (schannel : ℤ)
    (irow : ℕ) (status : List (List ℤ)) :
    (writeStatusRow groups g16 schannel irow status).map List.length
      = status.map List.length := by
  induction g16 with
  | zero => rfl
  | succ g ih => rw [writeStatusRow_succ, writeStatusGroup_map_length, ih]

theorem foldlM_map_length {α γ : Type}
    {step : List (List α) → γ → Except String (List (List α))}
    (hstep : ∀ m x m', step m x = .ok m' → m'.map List.length = m.map List.length) :
    ∀ (l : List γ) (m m' : List (List α)), l.foldlM step m = .ok m' →
      m'.map List.length = m.map List.length := by
  intro l
  induction l with
  | nil =>
    intro m m' h
    rw [List.foldlM_nil] at h
    injection h with h
    rw [← h]
  | cons x t ih =>
    intro m m' h
    rw [List.foldlM_cons] at h
    obtain ⟨m1, hm1, hrest⟩ := bindOk h
    rw [ih m1 m' hrest, hstep m x m1 hm1]

theorem store_fold_map_length {α : Type} {avalues : List α} {row : ℕ}
    {l : List ℕ} {m m' : List (List α)}
    (h : l.foldlM (fun mm i => do
        let v ← pyIndex avalues i
        pure (setCell mm i row v)) m = .ok m') :
    m'.map List.length = m.map List.length := by
  apply foldlM_map_length ?_ l m m' h
  intro mm i mm' hst
  obtain ⟨v, _, hp⟩ := bindOk hst
  have hp2 : Except.ok (setCell mm i row v) = Except.ok mm' := hp
  injection hp2 with hp3
  rw [← hp3, map_length_setCell]

theorem binary_store_fold_map_length {analogs a b : List ℚ} {row : ℕ}
    {l : List ℕ} {m m' : List (List ℚ)}
    (h : l.foldlM (fun mm ichannel => do
        let yint ← pyIndex analogs ichannel
        let ai ← pyIndex a ichannel
        let bi ← pyIndex b ichannel
        pure (setCell mm ichannel row (ai * yint + bi))) m = .ok m') :
    m'.map List.length = m.map List.length := by
  apply foldlM_map_length ?_ l m m' h
  intro mm i mm' hst
  obtain ⟨yint, _, hst⟩ := bindOk hst
  obtain ⟨ai, _, hst⟩ := bindOk hst
  obtain ⟨bi, _, hst⟩ := bindOk hst
  have hp2 : Except.ok (setCell mm i row (ai * yint + bi)) = Except.ok mm' := hst
  injection hp2 with hp3
  rw [← hp3, map_length_setCell]

theorem asciiParseGo_shape (cfg : Cfg) (a b : List ℚ) :
    ∀ (lines : List String) (ln : ℕ) (st st' : DatState),
      asciiParseGo cfg a b lines ln st = .ok st' →
      st'.time.length = st.time.length
      ∧ st'.analog.map List.length = st.analog.map List.length
      ∧ st'.status.map List.length = st.status.map List.length
      ∧ st'.total = st.total := by
  intro lines
  induction lines with
  | nil =>
    intro ln st st' h
    simp only [asciiParseGo] at h
    injection h with h
    subst h
    exact ⟨rfl, rfl, rfl, rfl⟩
  | cons line rest ih =>
    intro ln st st' h
    simp only [asciiParseGo] at h
    by_cases hbr : ((ln + 1 : ℕ) : ℤ) > st.total
    · rw [if_pos hbr] at h
      injection h with h
      subst h
      exact ⟨rfl, rfl, rfl, rfl⟩
    · rw [if_neg hbr] at h
      obtain ⟨nStr, _, h⟩ := bindOk h
      obtain ⟨n, _, h⟩ := bindOk h
      obtain ⟨tsStr, _, h⟩ := bindOk h
      obtain ⟨tsv, _, h⟩ := bindOk h
      obtain ⟨ts, _, h⟩ := bindOk h
      obtain ⟨av, _, h⟩ := bindOk h
      obtain ⟨sv, _, h⟩ := bindOk h
      obtain ⟨an2, han2, h⟩ := bindOk h
      obtain ⟨sta2, hsta2, h⟩ := bindOk h
      have hrec := ih (ln + 1) _ st' h
      have hana : an2.map List.length = st.analog.map List.length :=
        store_fold_map_length han2
      have hsta : sta2.map List.length = st.status.map List.length :=
        store_fold_map_length hsta2
      refine ⟨?_, ?_, ?_, ?_⟩
      · rw [hrec.1]
        exact List.length_set st.time _ _
      · rw [hrec.2.1]
        exact hana
      · rw [hrec.2.2.1]
        exact hsta
      · exact hrec.2.2.2

theorem binaryParseGo_shape (cfg : Cfg) (a b : List ℚ) (g16 : ℕ) :
    ∀ (rows : List BinRow) (irow : ℕ) (st st' : DatState),
      binaryParseGo cfg a b g16 rows irow st = .ok st' →
      st'.time.length = st.time.length
      ∧ st'.analog.map List.length = st.analog.map List.length
      ∧ st'.status.map List.length = st.status.map List.length
      ∧ st'.total = st.total := by
  intro rows
  induction rows with
  | nil =>
    intro irow st st' h
    simp only [binaryParseGo] at h
    injection h with h
    subst h
    exact ⟨rfl, rfl, rfl, rfl⟩
  | cons row rest ih =>
    intro irow st st' h
    simp only [binaryParseGo] at h
    by_cases harr : row.analogs.length ≠ cfg.analog_count.toNat
        ∨ row.groups.length ≠ g16
    · rw [if_pos harr] at h
      simp at h
    · rw [if_neg harr] at h
      obtain ⟨ts, _, h⟩ := bindOk h
      by_cases hbr : (irow : ℤ) ≥ st.total
      · rw [if_pos hbr] at h
        injection h with h
        subst h
        exact ⟨rfl, rfl, rfl, rfl⟩
      · rw [if_neg hbr] at h
        obtain ⟨an2, han2, h⟩ := bindOk h
        have hrec := ih (irow + 1) _ st' h
        have hana : an2.map List.length = st.analog.map List.length :=
          binary_store_fold_map_length han2
        refine ⟨?_, ?_, ?_, ?_⟩
        · rw [hrec.1]
          exact List.length_set st.time _ _
        · rw [hrec.2.1]
          exact hana
        · rw [hrec.2.2.1]
          exact writeStatusRow_map_length _ _ _ _ _
        · exact hrec.2.2.2

theorem dat_preallocate_of_last {cfg : Cfg} {r : ℚ × ℤ}
    (h : cfg.sample_rates.getLast? = some r) :
    dat_preallocate cfg = .ok
      { time := List.replicate r.2.toNat 0,
        analog := List.replicate cfg.analog_count.toNat (List.replicate r.2.toNat 0),
        status := List.replicate cfg.status_count.toNat (List.replicate r.2.toNat 0),
        total := r.2 } := by
  unfold dat_preallocate preallocate_values
  rw [h]

/-- Counterexample to C2 as stated: the configuration stream
    c2CfgLinesNeg parses (its rate line declares end-sample -5) and the
    ASCII decode of an empty data stream succeeds, with total_samples
    equal to the bound -5 but with a time array of length 0, which does
    not equal the last segment bound. -/
theorem c2_counterexample :
    (comtradeRead c2CfgLinesNeg (DatContents.text []) false).map
        (fun r => (r.1.sample_rates.getLast?.map Prod.snd, r.2.1.total,
                   (r.2.1.time.length : ℤ), (r.2.1.analog.length : ℤ),
                   (r.2.1.status.length : ℤ)))
      = .ok (some (-5), -5, 0, 0, 0)
    ∧ (0 : ℤ) ≠ (-5 : ℤ) :=
  ⟨by decide, by decide⟩

/-- C2 (amended): for every successful decode of any of the four format
    variants, total_samples equals the last SampleRateSegment's bound,
    and the time array, every analog channel array and every status
    channel array have length equal to that bound clamped at zero (equal
    to the bound itself whenever the bound is nonnegative). -/
theorem c2_array_lengths (fmt : DatFormat) (contents : DatContents) (cfg : Cfg)
    (st : DatState) (r : ℚ × ℤ)
    (hok : datRead fmt contents cfg = .ok st)
    (hlast : cfg.sample_rates.getLast? = some r) :
    st.total = r.2
    ∧ st.time.length = r.2.toNat
    ∧ (∀ ch ∈ st.analog, ch.length = r.2.toNat)
    ∧ (∀ ch ∈ st.status, ch.length = r.2.toNat) := by
  have hfinish : st.time.length = r.2.toNat
      ∧ st.analog.map List.length
          = List.replicate cfg.analog_count.toNat r.2.toNat
      ∧ st.status.map List.length
          = List.replicate cfg.status_count.toNat r.2.toNat
      ∧ st.total = r.2 → st.total = r.2
      ∧ st.time.length = r.2.toNat
      ∧ (∀ ch ∈ st.analog, ch.length = r.2.toNat)
      ∧ (∀ ch ∈ st.status, ch.length = r.2.toNat) := by
    rintro ⟨h1, h2, h3, h4⟩
    refine ⟨h4, h1, ?_, ?_⟩
    · intro ch hch
      have hm : ch.length ∈ st.analog.map List.length := List.mem_map_of_mem _ hch
      rw [h2] at hm
      exact List.eq_of_mem_replicate hm
    · intro ch hch
      have hm : ch.length ∈ st.status.map List.length := List.mem_map_of_mem _ hch
      rw [h3] at hm
      exact List.eq_of_mem_replicate hm
  cases fmt <;> cases contents <;> simp only [datRead] at hok
  case ascii.text lines =>
    obtain ⟨st0, hpre, hparse⟩ := bindOk hok
    rw [dat_preallocate_of_last hlast] at hpre
    injection hpre with hpre
    subst hpre
    simp only [asciiParse] at hparse
    have hsh := asciiParseGo_shape cfg _ _ lines 0 _ st hparse
    apply hfinish
    refine ⟨?_, ?_, ?_, hsh.2.2.2⟩
    · rw [hsh.1]; simp
    · rw [hsh.2.1]; simp
    · rw [hsh.2.2.1]; simp
  case ascii.bin rows => simp at hok
  case binary.text lines => simp at hok
  case binary.bin rows =>
    obtain ⟨st0, hpre, hparse⟩ := bindOk hok
    rw [dat_preallocate_of_last hlast] at hpre
    injection hpre with hpre
    subst hpre
    simp only [binaryParse] at hparse
    obtain ⟨fmtStr, _, h2⟩ := bindOk hparse
    have hsh := binaryParseGo_shape cfg _ _ _ rows 0 _ st h2
    apply hfinish
    refine ⟨?_, ?_, ?_, hsh.2.2.2⟩
    · rw [hsh.1]; simp
    · rw [hsh.2.1]; simp
    · rw [hsh.2.2.1]; simp
  case binary32.text lines => simp at hok
  case binary32.bin rows =>
    obtain ⟨st0, hpre, hparse⟩ := bindOk hok
    rw [dat_preallocate_of_last hlast] at hpre
    injection hpre with hpre
    subst hpre
    simp only [binaryParse] at hparse
    obtain ⟨fmtStr, _, h2⟩ := bindOk hparse
    have hsh := binaryParseGo_shape cfg _ _ _ rows 0 _ st h2
    apply hfinish
    refine ⟨?_, ?_, ?_, hsh.2.2.2⟩
    · rw [hsh.1]; simp
    · rw [hsh.2.1]; simp
    · rw [hsh.2.2.1]; simp
  case float32.text lines => simp at hok
  case float32.bin rows =>
    obtain ⟨st0, hpre, hparse⟩ := bindOk hok
    rw [dat_preallocate_of_last hlast] at hpre
    injection hpre with hpre
    subst hpre
    simp only [binaryParse] at hparse
    obtain ⟨fmtStr, _, h2⟩ := bindOk hparse
    have hsh := binaryParseGo_shape cfg _ _ _ rows 0 _ st h2
    apply hfinish
    refine ⟨?_, ?_, ?_, hsh.2.2.2⟩
    · rw [hsh.1]; simp
    · rw [hsh.2.1]; simp
    · rw [hsh.2.2.1]; simp

/-- Witness for C2 (amended) on a concrete ASCII decode with bound 4. -/
theorem c2_array_lengths_witness :
    datRead .ascii (.text []) simpleAsciiCfg = .ok c2WitnessState
    ∧ (c2WitnessState.total = ((1000 : ℚ), (4 : ℤ)).2
       ∧ c2WitnessState.time.length = ((1000 : ℚ), (4 : ℤ)).2.toNat
       ∧ (∀ ch ∈ c2WitnessState.analog, ch.length = ((1000 : ℚ), (4 : ℤ)).2.toNat)
       ∧ (∀ ch ∈ c2WitnessState.status, ch.length = ((1000 : ℚ), (4 : ℤ)).2.toNat)) :=
  ⟨by decide,
   c2_array_lengths .ascii (.text []) simpleAsciiCfg c2WitnessState (1000, 4)
     (by decide) (by decide)⟩

theorem pureOk {α : Type} {a b : α} (h : (pure a : Except String α) = .ok b) :
    a = b :=
  Except.ok.inj h

theorem fracToMicro_warnings (s : String) (flag : Bool) :
    (fracToMicro s flag).2.2 = [] ∨ (fracToMicro s flag).2.2 = [CWarning.datetimeNano] := by
  simp only [fracToMicro]
  split_ifs <;> simp

theorem pyGetTime_warning_nano {t : String} {flag : Bool}
    {v : ℕ × ℕ × ℕ × ℕ × Bool} {ws : List CWarning}
    (h : pyGetTime t flag = .ok (some (v, ws))) :
    ∀ w ∈ ws, w = CWarning.datetimeNano := by
  unfold pyGetTime at h
  cases hm : matchTime t with
  | none => rw [hm] at h; simp at h
  | some g =>
    obtain ⟨h4, m4, s4, fr⟩ := g
    rw [hm] at h
    cases fr with
    | none => simp at h
    | some frac =>
      simp only [] at h
      injection h with h
      injection h with h
      have hws : ws = (fracToMicro frac flag).2.2 := by
        have := congrArg Prod.snd h
        simp at this
        exact this.symm
      intro w hw
      rw [hws] at hw
      rcases fracToMicro_warnings frac flag with he | he <;> rw [he] at hw
      · exact absurd hw (List.not_mem_nil w)
      · simpa using hw

theorem mem_ite_minDate (c : Prop) [Decidable c] (w : CWarning)
    (hw : w ∈ (if c then [CWarning.minDate] else ([] : List CWarning))) :
    w = CWarning.minDate := by
  by_cases hc : c
  · rw [if_pos hc] at hw
    simpa using hw
  · rw [if_neg hc] at hw
    simp at hw

theorem read_timestamp_warnings {l rev : String} {flag : Bool}
    {ts : Datetime} {nano : Bool} {ws : List CWarning}
    (h : read_timestamp l rev flag = .ok (ts, nano, ws)) :
    ∀ w ∈ ws, w.isUnknownRevision = false := by
  unfold read_timestamp at h
  obtain ⟨⟨dmy, hms, nano0, ws0⟩, hparsed, h⟩ := bindOk h
  obtain ⟨ts2, hmk, h⟩ := bindOk h
  have hp := pureOk h
  have hws2 : ws0 ++ _ = ws := congrArg (fun p => p.2.2) hp
  have hws0 : ∀ w ∈ ws0, w.isUnknownRevision = false := by
    by_cases hl : (pyStrip l).length > 0
    · rw [if_pos hl] at hparsed
      by_cases ht : (pyStrip ((read_sep_values l 2 "").getD 1 "")).length > 0
      · rw [if_pos ht] at hparsed
        obtain ⟨o, hpg, hparsed⟩ := bindOk hparsed
        cases o with
        | none => simp at hparsed
        | some p =>
          obtain ⟨⟨h5, m5, s5, us5, nn5⟩, wsg⟩ := p
          have hp2 := pureOk hparsed
          have hws0g : wsg = ws0 := congrArg (fun q => q.2.2.2) hp2
          intro w hw
          rw [← hws0g] at hw
          rw [pyGetTime_warning_nano hpg w hw]
          rfl
      · rw [if_neg ht] at hparsed
        have hp2 := pureOk hparsed
        have hws0g : ([] : List CWarning) = ws0 := congrArg (fun q => q.2.2.2) hp2
        intro w hw
        rw [← hws0g] at hw
        exact absurd hw (List.not_mem_nil w)
    · rw [if_neg hl] at hparsed
      have hp2 := pureOk hparsed
      have hws0g : ([] : List CWarning) = ws0 := congrArg (fun q => q.2.2.2) hp2
      intro w hw
      rw [← hws0g] at hw
      exact absurd hw (List.not_mem_nil w)
  intro w hw
  rw [← hws2] at hw
  rcases List.mem_append.mp hw with hw0 | hwX
  · exact hws0 w hw0
  · rw [mem_ite_minDate _ w hwX]
    rfl

theorem readCfgLines_ok_decomp {lines0 : List String} {flag : Bool} {cfg : Cfg}
    {warns : List CWarning} (h : readCfgLines lines0 flag = .ok (cfg, warns)) :
    ∃ w1 w2 w3 : List CWarning,
      parseLine1 (readline lines0).1 flag
        = .ok (cfg.station_name, cfg.rec_dev_id, cfg.rev_year, w1)
      ∧ parseChannelCounts (readline (readline lines0).2).1
        = .ok (cfg.channels_count, cfg.analog_count, cfg.status_count)
      ∧ warns = w1 ++ w2 ++ w3
      ∧ (∃ l1 ts1 n1, read_timestamp l1 cfg.rev_year flag = .ok (ts1, n1, w2))
      ∧ (∃ l2 ts2 n2, read_timestamp l2 cfg.rev_year flag = .ok (ts2, n2, w3)) := by
  unfold readCfgLines at h
  obtain ⟨⟨s1, d1, r1, w1⟩, h1, h⟩ := bindOk h
  obtain ⟨⟨cc, ac, sc⟩, h2, h⟩ := bindOk h
  obtain ⟨⟨ach, l3⟩, h3, h⟩ := bindOk h
  obtain ⟨⟨sch, l4⟩, h4, h⟩ := bindOk h
  obtain ⟨freq, h5, h⟩ := bindOk h
  obtain ⟨nr0, h6, h⟩ := bindOk h
  obtain ⟨⟨rates, l5⟩, h7, h⟩ := bindOk h
  obtain ⟨⟨ts1v, n1v, w2⟩, h8, h⟩ := bindOk h
  obtain ⟨⟨ts2v, n2v, w3⟩, h9, h⟩ := bindOk h
  obtain ⟨tml, h10, h⟩ := bindOk h
  obtain ⟨codes, h11, h⟩ := bindOk h
  have hp := pureOk h
  have hcfg : _ = cfg := congrArg Prod.fst hp
  have hwarns : w1 ++ w2 ++ w3 = warns := congrArg Prod.snd hp
  subst hcfg
  subst hwarns
  exact ⟨w1, w2, w3, h1, h2, rfl, ⟨_, _, _, h8⟩, ⟨_, _, _, h9⟩⟩

/-- Counterexample to C3 as stated: the stream c3CfgLinesBad parses
    successfully with channels_count 5, analog_count 2 and status_count
    1, and 2 + 1 is not 5 — the parser performs no consistency check on
    the second line's three counts. -/
theorem c3_counterexample :
    (readCfgLines c3CfgLinesBad false).map
        (fun p => (p.1.channels_count, p.1.analog_count, p.1.status_count))
      = .ok (5, 2, 1)
    ∧ (2 : ℤ) + 1 ≠ 5 :=
  ⟨by decide, by decide⟩

/-- C3 (amended): for every Configuration produced by a successful parse
    whose second line declares a total equal to the declared analog count
    plus the declared status count, analog_count + status_count equals
    channels_count (the three stored counts are exactly the parsed
    fields, with no cross-check). -/
theorem c3_channel_counts (lines : List String) (flag : Bool) (cfg : Cfg)
    (warns : List CWarning) (t a s : ℤ)
    (hok : readCfgLines lines flag = .ok (cfg, warns))
    (hline2 : parseChannelCounts (readline (readline lines).2).1 = .ok (t, a, s))
    (hsum : t = a + s) :
    cfg.analog_count + cfg.status_count = cfg.channels_count := by
  obtain ⟨w1, w2, w3, hl1, hl2, hw, ht1, ht2⟩ := readCfgLines_ok_decomp hok
  rw [hline2] at hl2
  injection hl2 with hl2
  have hcc : t = cfg.channels_count := congrArg Prod.fst hl2
  have hac : a = cfg.analog_count := congrArg (fun p => p.2.1) hl2
  have hsc : s = cfg.status_count := congrArg (fun p => p.2.2) hl2
  omega

/-- Witness for C3 (amended) on the consistent stream: total 2 = 1 + 1. -/
theorem c3_channel_counts_witness :
    readCfgLines cfgLinesConsistent false = .ok (consistentCfg, [])
    ∧ parseChannelCounts (readline (readline cfgLinesConsistent).2).1 = .ok (2, 1, 1)
    ∧ (2 : ℤ) = 1 + 1
    ∧ consistentCfg.analog_count + consistentCfg.status_count
        = consistentCfg.channels_count :=
  ⟨by decide, by decide, by decide,
   c3_channel_counts cfgLinesConsistent false consistentCfg [] 2 1 1
     (by decide) (by decide) (by decide)⟩

theorem parseLine1_two_fields {line : String} {flag : Bool}
    (h2 : (read_sep_values line (-1) "").length = 2) :
    ∃ station dev, parseLine1 line flag = .ok (station, dev, REV_1991, []) := by
  obtain ⟨x, y, hxy⟩ := List.length_eq_two.mp h2
  unfold parseLine1
  rw [hxy]
  exact ⟨x, y, rfl⟩

/-- C10: a configuration stream whose first line has exactly two
    comma-separated fields (no revision field) parses with revision tag
    "1991", and no unknown-revision warning is emitted anywhere in the
    parse. -/
theorem c10_default_revision (lines : List String) (flag : Bool) (cfg : Cfg)
    (warns : List CWarning)
    (h2fields : (read_sep_values (readline lines).1 (-1) "").length = 2)
    (hok : readCfgLines lines flag = .ok (cfg, warns)) :
    cfg.rev_year = "1991"
    ∧ ∀ w ∈ warns, w.isUnknownRevision = false := by
  obtain ⟨w1, w2, w3, hl1, hl2, hw, ⟨l1, ts1, n1, ht1⟩, ⟨l2, ts2, n2, ht2⟩⟩ :=
    readCfgLines_ok_decomp hok
  obtain ⟨station, dev, hp1⟩ := @parseLine1_two_fields (readline lines).1 flag h2fields
  rw [hp1] at hl1
  injection hl1 with hl1
  have hrev : REV_1991 = cfg.rev_year := congrArg (fun p => p.2.2.1) hl1
  have hw1 : ([] : List CWarning) = w1 := congrArg (fun p => p.2.2.2) hl1
  refine ⟨hrev.symm, ?_⟩
  intro w hw'
  rw [hw] at hw'
  rcases List.mem_append.mp hw' with hwa | hw3
  · rcases List.mem_append.mp hwa with hw1' | hw2
    · rw [← hw1] at hw1'
      exact absurd hw1' (List.not_mem_nil w)
    · exact read_timestamp_warnings ht1 w hw2
  · exact read_timestamp_warnings ht2 w hw3

/-- Witness for C10 on the concrete two-field stream. -/
theorem c10_default_revision_witness :
    (read_sep_values (readline cfgLinesConsistent).1 (-1) "").length = 2
    ∧ consistentCfg.rev_year = "1991"
    ∧ ∀ w ∈ ([] : List CWarning), w.isUnknownRevision = false :=
  ⟨by decide,
   (c10_default_revision cfgLinesConsistent false consistentCfg []
      (by decide) (by decide)).1,
   (c10_default_revision cfgLinesConsistent false consistentCfg []
      (by decide) (by decide)).2⟩
